import Mathlib

/-!
Verification development for the shopping-trends preprocessing pipeline
(`preprocessing/automate_Ardena-Afif-Pratama.py`).

The script is a batch feature-transformation pipeline built on pandas and
scikit-learn.  We embed the data model and the library semantics the script
relies on:

* a pandas `DataFrame` is an ordered list of named, homogeneous columns; a
  column's dtype is `num` (matched by `select_dtypes(include=np.number)`),
  `obj` (matched by `select_dtypes(include='object')`), or `other`
  (any further dtype, e.g. bool or datetime — matched by neither selector,
  hence handled by `remainder='passthrough'`);
* `sklearn.preprocessing.LabelEncoder.fit_transform` maps every value to the
  index of that value in the sorted list of distinct values (`np.unique`);
* `sklearn.preprocessing.StandardScaler` standardizes each column by its own
  mean and population standard deviation, with a zero scale replaced by 1
  (`_handle_zeros_in_scale`);
* `sklearn.preprocessing.OneHotEncoder(handle_unknown='ignore', drop='first')`
  fits the sorted distinct values of each column as its categories, drops the
  first, and emits one 0/1 indicator column per kept category; a value outside
  the fitted categories yields all-zero indicators;
* `sklearn.compose.ColumnTransformer` concatenates the transformed blocks in
  transformer order, then the passthrough remainder, preserving the input
  column order inside each block.

Floating-point arithmetic is modelled exactly: column data are rationals and
the (possibly irrational) scaled values live in `ℝ`.
-/

namespace ShoppingPrep

/-- Homogeneous column payload, tagged by the pandas dtype class that the
script's two `select_dtypes` calls distinguish. -/
inductive ColData where
  | num (vals : List ℚ)
  | obj (vals : List String)
  | other (vals : List ℚ)
deriving DecidableEq

/-- A named DataFrame column. -/
structure PCol where
  name : String
  data : ColData
deriving DecidableEq

/-- A pandas DataFrame: an ordered list of named columns. -/
abbrev DataFrame := List PCol

instance exceptDecidableEq {ε α : Type} [DecidableEq ε] [DecidableEq α] :
    DecidableEq (Except ε α)
  | .error e, .error f =>
    if h : e = f then isTrue (by rw [h]) else
      isFalse (by intro hh; cases hh; exact h rfl)
  | .error _, .ok _ => isFalse (by intro h; cases h)
  | .ok _, .error _ => isFalse (by intro h; cases h)
  | .ok a, .ok b =>
    if h : a = b then isTrue (by rw [h]) else
      isFalse (by intro hh; cases hh; exact h rfl)

/-- Matches `select_dtypes(include=np.number)`. -/
def ColData.isNum : ColData → Bool
  | .num _ => true
  | _ => false

/-- Matches `select_dtypes(include='object')`. -/
def ColData.isObj : ColData → Bool
  | .obj _ => true
  | _ => false

/-- A dtype matched by neither selector (handled by `remainder='passthrough'`). -/
def ColData.isOther : ColData → Bool
  | .other _ => true
  | _ => false

/-- Numeric payload of a column (empty for non-numeric columns). -/
def PCol.numVals : PCol → List ℚ
  | ⟨_, .num v⟩ => v
  | _ => []

/-- String payload of a column (empty for non-object columns). -/
def PCol.objVals : PCol → List String
  | ⟨_, .obj v⟩ => v
  | _ => []

/-- Payload of an `other`-dtype column (empty otherwise). -/
def PCol.passVals : PCol → List ℚ
  | ⟨_, .other v⟩ => v
  | _ => []

/-- `df.columns`. -/
def colNames (df : DataFrame) : List String := df.map PCol.name

/-- Lexicographic comparison of character lists by code point, the order
`np.unique` sorts strings by.  (Defined by structural recursion so that it
evaluates inside the kernel, unlike the iterator-based library order.) -/
def strLeAux : List Char → List Char → Bool
  | [], _ => true
  | _ :: _, [] => false
  | a :: as, b :: bs => if a = b then strLeAux as bs else decide (a < b)

/-- Lexicographic comparison of strings by code point. -/
def strLe (a b : String) : Bool := strLeAux a.data b.data

/-- `strLe` as a relation, for use with `List.insertionSort`. -/
@[reducible] def strLeRel (a b : String) : Prop := strLe a b = true

/-- `np.unique`: the sorted list of distinct values, relative to a given
total order `r`. -/
def sortedUniqueBy {α : Type} [DecidableEq α] (r : α → α → Prop) [DecidableRel r]
    (l : List α) : List α :=
  List.insertionSort r l.dedup

/-- `LabelEncoder().fit_transform(l)` (line 46): each value becomes the index
of that value among the sorted distinct values. -/
def labelEncodeBy {α : Type} [DecidableEq α] (r : α → α → Prop) [DecidableRel r]
    (l : List α) : List ℕ :=
  l.map (fun v => (sortedUniqueBy r l).indexOf v)

/-- Label-encode a column payload of any dtype; numeric payloads sort by the
numeric order, string payloads by code-point order. -/
def labelEncodeData : ColData → List ℕ
  | .num v => labelEncodeBy (fun a b => a ≤ b) v
  | .obj v => labelEncodeBy strLeRel v
  | .other v => labelEncodeBy (fun a b => a ≤ b) v

/-- Column mean used by `StandardScaler` (0 on an empty column, which cannot
occur in a fitted run). -/
def colMean (xs : List ℚ) : ℚ := xs.sum / xs.length

/-- Population variance used by `StandardScaler` (`ddof = 0`). -/
def colVar (xs : List ℚ) : ℚ := (xs.map (fun x => (x - colMean xs) ^ 2)).sum / xs.length

/-- `StandardScaler` scale: the standard deviation, with a zero value replaced
by 1 (`_handle_zeros_in_scale`). -/
noncomputable def colScale (xs : List ℚ) : ℝ :=
  if colVar xs = 0 then 1 else Real.sqrt (colVar xs)

/-- `StandardScaler().fit_transform` on one column: `(x - mean) / scale`. -/
noncomputable def scaleColumn (xs : List ℚ) : List ℝ :=
  xs.map (fun (x : ℚ) => ((x : ℝ) - (colMean xs : ℝ)) / colScale xs)

/-- `OneHotEncoder` fitted categories of one column: sorted distinct values. -/
def fittedCategories (vals : List String) : List String := sortedUniqueBy strLeRel vals

/-- Categories that produce indicator columns under `drop='first'`: all fitted
categories except the first. -/
def keptCategories (vals : List String) : List String := (fittedCategories vals).drop 1

/-- The indicator column emitted for one kept category. -/
def indicatorColumn (vals : List String) (cat : String) : List ℚ :=
  vals.map (fun v => if v = cat then 1 else 0)

/-- The indicator row produced when encoding a single value `v` against the
categories fitted from `vals` (`handle_unknown='ignore'`, `drop='first'`):
one entry per kept category, total (never raises). -/
def encodeRow (vals : List String) (v : String) : List ℚ :=
  (keptCategories vals).map (fun c => if v = c then 1 else 0)

/-- Line 60: `X.select_dtypes(include=np.number)`, keeping DataFrame order. -/
def numericCols (X : DataFrame) : List PCol := X.filter (fun c => c.data.isNum)

/-- Line 61: `X.select_dtypes(include='object')`, keeping DataFrame order. -/
def objCols (X : DataFrame) : List PCol := X.filter (fun c => c.data.isObj)

/-- Columns matched by neither selector; `ColumnTransformer` passes them
through as the remainder. -/
def otherCols (X : DataFrame) : List PCol := X.filter (fun c => c.data.isOther)

/-- Line 60: `numerical_features`. -/
def numerical_features (X : DataFrame) : List String := (numericCols X).map PCol.name

/-- Line 61: `categorical_features_for_ohe`. -/
def categorical_features_for_ohe (X : DataFrame) : List String := (objCols X).map PCol.name

/-- Names of the passthrough (remainder) columns. -/
def passthroughNames (X : DataFrame) : List String := (otherCols X).map PCol.name

/-- Provenance of one output column of the fitted `ColumnTransformer`. -/
inductive OutSpec where
  | scaledNum (src : String)
  | indicator (src : String) (cat : String)
  | pass (src : String)
deriving DecidableEq

/-- The generated name of an output column: numeric columns keep their name,
indicators are named `<column>_<category>` (`get_feature_names_out`), and
passthrough columns receive no name in the script's reconstruction. -/
def OutSpec.outName : OutSpec → Option String
  | .scaledNum src => some src
  | .indicator src cat => some (src ++ "_" ++ cat)
  | .pass _ => none

/-- Provenance of the columns of `preprocessor.fit_transform(X)`, in output
order: scaled numeric block, then per-source indicator blocks, then the
passthrough remainder. -/
def outSpecs (X : DataFrame) : List OutSpec :=
  (numericCols X).map (fun c => OutSpec.scaledNum c.name)
    ++ (objCols X).flatMap
        (fun c => (keptCategories c.objVals).map (fun cat => OutSpec.indicator c.name cat))
    ++ (otherCols X).map (fun c => OutSpec.pass c.name)

/-- The columns of `X_transformed_array = preprocessor.fit_transform(X_features)`
(line 79), in output order. -/
noncomputable def transformMatrixCols (X : DataFrame) : List (List ℝ) :=
  (numericCols X).map (fun c => scaleColumn c.numVals)
    ++ (objCols X).flatMap
        (fun c => (keptCategories c.objVals).map
          (fun cat => (indicatorColumn c.objVals cat).map (fun (q : ℚ) => (q : ℝ))))
    ++ (otherCols X).map (fun c => c.passVals.map (fun (q : ℚ) => (q : ℝ)))

/-- Lines 82-84: `ohe_feature_names`, via
`named_transformers_['cat'].get_feature_names_out(...)`; `[]` when there are
no categorical columns (the guard on line 83 and the encoder agree on this). -/
def ohe_feature_names (X : DataFrame) : List String :=
  (objCols X).flatMap
    (fun c => (keptCategories c.objVals).map (fun cat => c.name ++ "_" ++ cat))

/-- Line 86: `final_feature_names = numerical_features + list(ohe_feature_names)`.
Passthrough columns contribute no name. -/
def final_feature_names (X : DataFrame) : List String :=
  numerical_features X ++ ohe_feature_names X

/-- Distinguishable failure conditions of a run.  Each corresponds to one
diagnostic branch of the script: `load_data` returning `None` (line 21-26),
the missing-target check (lines 39-41), and the name/column-count check
(lines 89-92; the warning prints both counts, after which the
`pd.DataFrame(..., columns=final_feature_names)` call on line 93 raises
`ValueError` and the handler on lines 99-103 returns `None, None`). -/
inductive PipeErr where
  | loadFailed
  | missingTarget (t : String)
  | countMismatch (arrayCols : ℕ) (nameCount : ℕ)
deriving DecidableEq

/-- Lines 51-56: drop the target column, then `Customer ID` when present. -/
def featureTable (df : DataFrame) (t : String) : DataFrame :=
  (df.filter (fun c => c.name ≠ t)).filter (fun c => c.name ≠ "Customer ID")

/-- `df[t]`: payload of the (first) column named `t`. -/
def targetVals (df : DataFrame) (t : String) : ColData :=
  match df.find? (fun c => c.name = t) with
  | some c => c.data
  | none => ColData.num []

/-- Successful result of `preprocess_data_for_classification`: the feature
table the transformed frame was built from, the generated column names, and
the label-encoded target. -/
structure PreOut where
  feats : DataFrame
  featureNames : List String
  y : List ℕ
deriving DecidableEq

/-- Lines 28-103: `preprocess_data_for_classification(df, target_column_name)`.
Every `print`-and-return-`None` branch of the script is one distinct
`PipeErr`.  The count check compares `(outSpecs X).length`, which equals
`(transformMatrixCols X).length` (proved below), keeping the decision
computable. -/
def preprocess_data_for_classification (d : Option DataFrame) (t : String) :
    Except PipeErr PreOut :=
  match d with
  | none => Except.error PipeErr.loadFailed
  | some df =>
    if t ∈ colNames df then
      let y := labelEncodeData (targetVals df t)
      let X := featureTable df t
      let names := final_feature_names X
      if (outSpecs X).length = names.length then
        Except.ok ⟨X, names, y⟩
      else
        Except.error (PipeErr.countMismatch (outSpecs X).length names.length)
    else
      Except.error (PipeErr.missingTarget t)

/-- The saved CSV content: header `featureNames ++ [targetName]`, feature
columns given by `transformMatrixCols feats`, and the target codes as the
last column. -/
structure FinalFrame where
  feats : DataFrame
  featureNames : List String
  targetName : String
  targetCol : List ℕ
deriving DecidableEq

/-- Header row of the saved file. -/
def FinalFrame.header (f : FinalFrame) : List String := f.featureNames ++ [f.targetName]

/-- The numeric feature columns stored in the saved file. -/
noncomputable def FinalFrame.featureCols (f : FinalFrame) : List (List ℝ) :=
  transformMatrixCols f.feats

/-- Lines 105-128: `save_combined_data` concatenates the transformed frame
with the target series named `targetName` as the last column. -/
def save_combined_data (p : PreOut) (targetName : String) : FinalFrame :=
  ⟨p.feats, p.featureNames, targetName, p.y⟩

/-- Observable outcome of one `__main__` run: the written file (if any), the
failure condition diagnosed (if any), and the process exit status. -/
structure RunResult where
  output : Option FinalFrame
  diag : Option PipeErr
  exitCode : ℕ
deriving DecidableEq

/-- Lines 134-150: the `__main__` block.  `load_data` failure is modelled by
`loaded = none`.  The script never calls `sys.exit` and every exception is
caught, so the interpreter always exits with status 0. -/
def runMain (loaded : Option DataFrame) : RunResult :=
  match preprocess_data_for_classification loaded "Category" with
  | Except.error e => ⟨none, some e, 0⟩
  | Except.ok p => ⟨some (save_combined_data p "Encoded_Category"), none, 0⟩

/-- Concrete table whose feature part holds a boolean-dtype column: a target,
a passthrough column, and nothing else. -/
def exPassOnly : DataFrame :=
  [⟨"Category", ColData.obj ["A", "B"]⟩, ⟨"Flag", ColData.other [0, 1]⟩]

/-- Concrete feature table with a single boolean-dtype column. -/
def exOtherCol : DataFrame := [⟨"Flag", ColData.other [0, 1]⟩]

/-- Concrete feature table with one numeric and one boolean-dtype column. -/
def exNumPass : DataFrame :=
  [⟨"Age", ColData.num [1, 2]⟩, ⟨"Flag", ColData.other [0, 1]⟩]

/-- Concrete table with a continuous (numeric) column `Amount` usable as a
regression target, plus one numeric feature. -/
def exAmount : DataFrame :=
  [⟨"Amount", ColData.num [10, 20, 30]⟩, ⟨"Size", ColData.num [1, 2, 3]⟩]

/-- Concrete table whose feature part is purely numeric. -/
def exAllNum : DataFrame :=
  [⟨"Category", ColData.obj ["A", "B"]⟩, ⟨"Age", ColData.num [1, 2]⟩]

/-- Concrete feature table with one numeric and one categorical column. -/
def exNumCat : DataFrame :=
  [⟨"Age", ColData.num [1, 2, 3]⟩, ⟨"Color", ColData.obj ["Red", "Blue", "Red"]⟩]

/-- Concrete full table mirroring the spec's end-to-end scenario: identifier,
categorical, numeric and categorical-target columns. -/
def exScenario : DataFrame :=
  [⟨"Customer ID", ColData.num [1, 2, 3]⟩,
   ⟨"Color", ColData.obj ["Red", "Blue", "Red"]⟩,
   ⟨"Amount", ColData.num [10, 20, 30]⟩,
   ⟨"Category", ColData.obj ["A", "B", "A"]⟩]

end ShoppingPrep

namespace ShoppingPrep

/-! ### Properties of the code-point order used for sorting -/

theorem strLeAux_total : ∀ as bs : List Char, strLeAux as bs = true ∨ strLeAux bs as = true
  | [], _ => Or.inl rfl
  | _ :: _, [] => Or.inr rfl
  | a :: as, b :: bs => by
    by_cases h : a = b
    · subst h
      rcases strLeAux_total as bs with ih | ih
      · exact Or.inl (by simpa [strLeAux] using ih)
      · exact Or.inr (by simpa [strLeAux] using ih)
    · rcases lt_or_gt_of_ne h with hlt | hlt
      · exact Or.inl (by simp [strLeAux, h, hlt])
      · exact Or.inr (by simp [strLeAux, Ne.symm h, hlt])

theorem strLeAux_trans :
    ∀ as bs cs : List Char,
      strLeAux as bs = true → strLeAux bs cs = true → strLeAux as cs = true
  | [], _, _ => fun _ _ => rfl
  | _ :: _, [], _ => fun h _ => by simp [strLeAux] at h
  | _ :: _, _ :: _, [] => fun _ h => by simp [strLeAux] at h
  | a :: as, b :: bs, c :: cs => fun h1 h2 => by
    by_cases hab : a = b <;> by_cases hbc : b = c
    · subst hab; subst hbc
      simp only [strLeAux, if_pos rfl] at h1 h2 ⊢
      exact strLeAux_trans as bs cs h1 h2
    · subst hab
      simp only [strLeAux, if_pos rfl] at h1
      simp only [strLeAux, if_neg hbc, decide_eq_true_eq] at h2
      simp [strLeAux, show a ≠ c from hbc, h2]
    · subst hbc
      simp only [strLeAux, if_neg hab, decide_eq_true_eq] at h1
      simp [strLeAux, show a ≠ b from hab, h1]
    · simp only [strLeAux, if_neg hab, decide_eq_true_eq] at h1
      simp only [strLeAux, if_neg hbc, decide_eq_true_eq] at h2
      have hac : a < c := lt_trans h1 h2
      simp [strLeAux, ne_of_lt hac, hac]

theorem strLeAux_antisymm :
    ∀ as bs : List Char, strLeAux as bs = true → strLeAux bs as = true → as = bs
  | [], [] => fun _ _ => rfl
  | [], _ :: _ => fun _ h => by simp [strLeAux] at h
  | _ :: _, [] => fun h _ => by simp [strLeAux] at h
  | a :: as, b :: bs => fun h1 h2 => by
    by_cases hab : a = b
    · subst hab
      simp only [strLeAux, if_pos rfl] at h1 h2
      rw [strLeAux_antisymm as bs h1 h2]
    · simp only [strLeAux, if_neg hab, decide_eq_true_eq] at h1
      simp only [strLeAux, if_neg (Ne.symm hab), decide_eq_true_eq] at h2
      exact absurd h1 (not_lt_of_gt h2)

instance : IsTotal String strLeRel :=
  ⟨fun a b => strLeAux_total a.data b.data⟩

instance : IsTrans String strLeRel :=
  ⟨fun a b c => strLeAux_trans a.data b.data c.data⟩

instance : IsAntisymm String strLeRel :=
  ⟨fun a b h1 h2 => by
    cases a with
    | mk da =>
      cases b with
      | mk db => exact congrArg String.mk (strLeAux_antisymm da db h1 h2)⟩

/-! ### Properties of `sortedUniqueBy` and `labelEncodeBy` -/

theorem sorted_sortedUniqueBy {α : Type} [DecidableEq α] (r : α → α → Prop) [DecidableRel r]
    [IsTotal α r] [IsTrans α r] (l : List α) : (sortedUniqueBy r l).Sorted r :=
  List.sorted_insertionSort r l.dedup

theorem nodup_sortedUniqueBy {α : Type} [DecidableEq α] (r : α → α → Prop) [DecidableRel r]
    (l : List α) : (sortedUniqueBy r l).Nodup :=
  (List.perm_insertionSort r l.dedup).nodup_iff.mpr (List.nodup_dedup l)

theorem mem_sortedUniqueBy {α : Type} [DecidableEq α] (r : α → α → Prop) [DecidableRel r]
    {l : List α} {v : α} : v ∈ sortedUniqueBy r l ↔ v ∈ l := by
  unfold sortedUniqueBy
  rw [(List.perm_insertionSort r l.dedup).mem_iff, List.mem_dedup]

theorem indexOf_lt_of_rel {α : Type} [DecidableEq α] {r : α → α → Prop} [IsAntisymm α r]
    {s : List α} (hs : s.Sorted r) {v w : α} (hv : v ∈ s) (hw : w ∈ s)
    (hr : r v w) (hne : v ≠ w) : s.indexOf v < s.indexOf w := by
  have hv' : s.indexOf v < s.length := List.indexOf_lt_length.mpr hv
  have hw' : s.indexOf w < s.length := List.indexOf_lt_length.mpr hw
  rcases lt_trichotomy (s.indexOf v) (s.indexOf w) with h | h | h
  · exact h
  · exfalso
    apply hne
    have := List.indexOf_get (a := v) (l := s) hv'
    rw [← this, ← List.indexOf_get (a := w) (l := s) hw']
    exact congrArg s.get (Fin.ext h)
  · exfalso
    have hrel := hs.rel_get_of_lt (a := ⟨s.indexOf w, hw'⟩) (b := ⟨s.indexOf v, hv'⟩)
      (by simpa using h)
    rw [List.indexOf_get hw', List.indexOf_get hv'] at hrel
    exact hne (antisymm hr hrel)

end ShoppingPrep

namespace ShoppingPrep

/-! ### Scaler arithmetic -/

theorem sum_of_const {c : ℚ} : ∀ {xs : List ℚ}, (∀ x ∈ xs, x = c) → xs.sum = xs.length * c
  | [] => by simp
  | a :: t => fun h => by
    have ha := h a (List.mem_cons_self a t)
    have ht := sum_of_const (fun x hx => h x (List.mem_cons_of_mem a hx))
    simp [ha, ht]
    ring

theorem eq_of_sum_sq_eq_zero {m : ℚ} :
    ∀ {l : List ℚ}, (l.map (fun x => (x - m) ^ 2)).sum = 0 → ∀ x ∈ l, x = m
  | [] => by simp
  | a :: t => fun h x hx => by
    simp only [List.map_cons, List.sum_cons] at h
    have h1 : 0 ≤ (a - m) ^ 2 := sq_nonneg _
    have h2 : 0 ≤ (t.map (fun x => (x - m) ^ 2)).sum :=
      List.sum_nonneg (fun y hy => by
        rcases List.mem_map.mp hy with ⟨z, _, rfl⟩
        exact sq_nonneg _)
    have ha : (a - m) ^ 2 = 0 := le_antisymm (by linarith) h1
    have ha' : a = m := by
      have := pow_eq_zero_iff (n := 2) (by norm_num) |>.mp ha
      linarith [sub_eq_zero.mp this]
    rcases List.mem_cons.mp hx with rfl | hxt
    · exact ha'
    · exact eq_of_sum_sq_eq_zero (l := t) (by linarith) x hxt

theorem colMean_of_const {xs : List ℚ} {c : ℚ} (hne : xs ≠ []) (h : ∀ x ∈ xs, x = c) :
    colMean xs = c := by
  have hlen : (xs.length : ℚ) ≠ 0 :=
    Nat.cast_ne_zero.mpr (List.length_pos.mpr hne).ne'
  rw [colMean, sum_of_const h, mul_comm, mul_div_assoc, div_self hlen, mul_one]

theorem colVar_of_const {xs : List ℚ} {c : ℚ} (h : ∀ x ∈ xs, x = c) : colVar xs = 0 := by
  rcases eq_or_ne xs [] with rfl | hne
  · simp [colVar]
  · have hm := colMean_of_const hne h
    have hz : (xs.map (fun x => (x - colMean xs) ^ 2)).sum = 0 :=
      List.sum_eq_zero (fun y hy => by
        rcases List.mem_map.mp hy with ⟨z, hz, rfl⟩
        rw [h z hz, hm]
        ring)
    rw [colVar, hz, zero_div]

theorem eq_mean_of_colVar_eq_zero {xs : List ℚ} (h : colVar xs = 0) :
    ∀ x ∈ xs, x = colMean xs := by
  rcases eq_or_ne xs [] with rfl | hne
  · simp
  · have hlen : (xs.length : ℚ) ≠ 0 := by
      exact Nat.cast_ne_zero.mpr (List.length_pos.mpr hne).ne'
    rw [colVar, div_eq_zero_iff] at h
    rcases h with h | h
    · exact eq_of_sum_sq_eq_zero h
    · exact absurd h hlen

theorem scaleColumn_of_var_eq_zero {xs : List ℚ} (h : colVar xs = 0) :
    scaleColumn xs = List.replicate xs.length 0 := by
  have hm := eq_mean_of_colVar_eq_zero h
  rw [scaleColumn, colScale, if_pos h]
  refine List.eq_replicate_iff.mpr ⟨List.length_map xs _, fun b hb => ?_⟩
  rcases List.mem_map.mp hb with ⟨x, hx, rfl⟩
  rw [hm x hx]
  simp

theorem scaleColumn_of_var_ne_zero {xs : List ℚ} (h : colVar xs ≠ 0) :
    scaleColumn xs = xs.map (fun (x : ℚ) => ((x : ℝ) - (colMean xs : ℝ)) / Real.sqrt (colVar xs)) := by
  rw [scaleColumn, colScale, if_neg h]

/-! ### Shape of the transformed matrix and the generated names -/

theorem flatMap_congr_fun {β γ : Type} {l : List β} {f g : β → List γ}
    (h : ∀ c ∈ l, f c = g c) : l.flatMap f = l.flatMap g := by
  induction l with
  | nil => rfl
  | cons a t ih =>
    simp only [List.flatMap_cons, h a (List.mem_cons_self a t),
      ih (fun c hc => h c (List.mem_cons_of_mem a hc))]

theorem length_flatMap_congr {β γ δ : Type} {l : List β} {f : β → List γ} {g : β → List δ}
    (h : ∀ c ∈ l, (f c).length = (g c).length) :
    (l.flatMap f).length = (l.flatMap g).length := by
  induction l with
  | nil => rfl
  | cons a t ih =>
    simp only [List.flatMap_cons, List.length_append,
      h a (List.mem_cons_self a t), ih (fun c hc => h c (List.mem_cons_of_mem a hc))]

theorem length_transformMatrixCols (X : DataFrame) :
    (transformMatrixCols X).length = (outSpecs X).length := by
  unfold transformMatrixCols outSpecs
  simp only [List.length_append, List.length_map]
  have h := length_flatMap_congr (l := objCols X)
    (f := fun c => (keptCategories c.objVals).map
      (fun cat => (indicatorColumn c.objVals cat).map (fun (q : ℚ) => (q : ℝ))))
    (g := fun c => (keptCategories c.objVals).map (fun cat => OutSpec.indicator c.name cat))
    (fun c _ => by simp)
  omega

theorem filterMap_some_comp {β γ : Type} (f : β → γ) :
    ∀ l : List β, l.filterMap (fun x => some (f x)) = l.map f
  | [] => rfl
  | a :: t => by simp [List.filterMap_cons, filterMap_some_comp f t]

theorem filterMap_none_eq_nil {β γ : Type} :
    ∀ l : List β, l.filterMap (fun _ => (none : Option γ)) = []
  | [] => rfl
  | a :: t => by simp [List.filterMap_cons, filterMap_none_eq_nil t]

theorem final_feature_names_eq_filterMap (X : DataFrame) :
    final_feature_names X = (outSpecs X).filterMap OutSpec.outName := by
  unfold final_feature_names outSpecs numerical_features ohe_feature_names
  simp only [List.filterMap_append, List.filterMap_map, List.filterMap_flatMap]
  have h1 : (numericCols X).filterMap
      (OutSpec.outName ∘ fun c => OutSpec.scaledNum c.name) = (numericCols X).map PCol.name :=
    filterMap_some_comp PCol.name (numericCols X)
  have h3 : (otherCols X).filterMap (OutSpec.outName ∘ fun c => OutSpec.pass c.name) = [] :=
    filterMap_none_eq_nil (otherCols X)
  rw [h1, h3, List.append_nil]
  congr 1
  exact flatMap_congr_fun (fun c _ =>
    (filterMap_some_comp (fun cat => c.name ++ "_" ++ cat) (keptCategories c.objVals)).symm)

end ShoppingPrep

namespace ShoppingPrep

/-! ### Dtype trichotomy and the classification partition -/

theorem dtype_cases (d : ColData) :
    (d.isNum = true ∧ d.isObj = false ∧ d.isOther = false)
      ∨ (d.isNum = false ∧ d.isObj = true ∧ d.isOther = false)
      ∨ (d.isNum = false ∧ d.isObj = false ∧ d.isOther = true) := by
  cases d <;> simp [ColData.isNum, ColData.isObj, ColData.isOther]

theorem cols_partition_perm (X : DataFrame) :
    (numericCols X ++ (objCols X ++ otherCols X)).Perm X := by
  have h1 := List.filter_append_perm (fun c => c.data.isNum) X
  have h2 := List.filter_append_perm (fun c => c.data.isObj)
    (X.filter (fun c => !c.data.isNum))
  have e1 : (X.filter (fun c => !c.data.isNum)).filter (fun c => c.data.isObj)
      = objCols X := by
    rw [List.filter_filter]
    apply List.filter_congr
    intro c _
    rcases dtype_cases c.data with ⟨ha, hb, hc⟩ | ⟨ha, hb, hc⟩ | ⟨ha, hb, hc⟩ <;>
      simp [ha, hb, hc]
  have e2 : (X.filter (fun c => !c.data.isNum)).filter (fun c => !c.data.isObj)
      = otherCols X := by
    rw [List.filter_filter]
    apply List.filter_congr
    intro c _
    rcases dtype_cases c.data with ⟨ha, hb, hc⟩ | ⟨ha, hb, hc⟩ | ⟨ha, hb, hc⟩ <;>
      simp [otherCols, ha, hb, hc]
  have step : (objCols X ++ otherCols X).Perm (X.filter (fun c => !c.data.isNum)) := by
    rw [← e1, ← e2]
    exact h2
  exact (step.append_left (numericCols X)).trans h1

theorem names_partition_perm (X : DataFrame) :
    (numerical_features X ++ (categorical_features_for_ohe X ++ passthroughNames X)).Perm
      (colNames X) := by
  have h := (cols_partition_perm X).map PCol.name
  simpa [numerical_features, categorical_features_for_ohe, passthroughNames, colNames,
    List.map_append] using h

/-! ### Sortedness of the kept categories -/

theorem sorted_keptCategories (vals : List String) :
    (keptCategories vals).Sorted strLeRel := by
  have hs : (fittedCategories vals).Sorted strLeRel :=
    sorted_sortedUniqueBy strLeRel vals
  exact hs.sublist (List.drop_sublist 1 (fittedCategories vals))

theorem nodup_keptCategories (vals : List String) :
    (keptCategories vals).Nodup := by
  have hs : (fittedCategories vals).Nodup := nodup_sortedUniqueBy strLeRel vals
  exact hs.sublist (List.drop_sublist 1 (fittedCategories vals))

/-! ### Unfolding the pipeline -/

theorem preprocess_some_eq (df : DataFrame) (t : String) :
    preprocess_data_for_classification (some df) t =
      if t ∈ colNames df then
        (if (outSpecs (featureTable df t)).length
            = (final_feature_names (featureTable df t)).length then
          Except.ok ⟨featureTable df t, final_feature_names (featureTable df t),
            labelEncodeData (targetVals df t)⟩
        else
          Except.error (PipeErr.countMismatch (outSpecs (featureTable df t)).length
            (final_feature_names (featureTable df t)).length))
      else Except.error (PipeErr.missingTarget t) := rfl

theorem preprocess_ok_inv {df : DataFrame} {t : String} {p : PreOut}
    (h : preprocess_data_for_classification (some df) t = Except.ok p) :
    t ∈ colNames df
      ∧ p.feats = featureTable df t
      ∧ p.featureNames = final_feature_names (featureTable df t)
      ∧ p.y = labelEncodeData (targetVals df t)
      ∧ (outSpecs (featureTable df t)).length
          = (final_feature_names (featureTable df t)).length := by
  rw [preprocess_some_eq] at h
  by_cases h1 : t ∈ colNames df
  · rw [if_pos h1] at h
    by_cases h2 : (outSpecs (featureTable df t)).length
        = (final_feature_names (featureTable df t)).length
    · rw [if_pos h2] at h
      cases h
      exact ⟨h1, rfl, rfl, rfl, h2⟩
    · rw [if_neg h2] at h
      cases h
  · rw [if_neg h1] at h
    cases h

end ShoppingPrep

namespace ShoppingPrep

theorem outSpecs_length_eq (X : DataFrame) :
    (outSpecs X).length = (final_feature_names X).length + (otherCols X).length := by
  unfold outSpecs final_feature_names numerical_features ohe_feature_names
  simp only [List.length_append, List.length_map]
  have h := length_flatMap_congr (l := objCols X)
    (f := fun c => (keptCategories c.objVals).map (fun cat => OutSpec.indicator c.name cat))
    (g := fun c => (keptCategories c.objVals).map (fun cat => c.name ++ "_" ++ cat))
    (fun c _ => by simp)
  omega

/-! ### Claim theorems -/

/-- Claim C2 (confirmed): unknown-category safety.  Encoding a value that is
not in the encoder's fitted category set never fails — `encodeRow` is a total
function — and produces the all-zero indicator row for that column. -/
theorem c2_unknown_category_safety (vals : List String) (v : String)
    (h : v ∉ fittedCategories vals) :
    encodeRow vals v = List.replicate (keptCategories vals).length 0 := by
  unfold encodeRow
  refine List.eq_replicate_iff.mpr ⟨List.length_map _ _, fun b hb => ?_⟩
  rcases List.mem_map.mp hb with ⟨c, hc, rfl⟩
  have hcf : c ∈ fittedCategories vals :=
    (List.drop_sublist 1 (fittedCategories vals)).subset hc
  have hvc : v ≠ c := fun e => h (e ▸ hcf)
  simp [hvc]

/-- Witness for C2 at a concrete input: `"Z"` is not among the categories
fitted from `["B", "A"]` and encodes to the all-zero row. -/
theorem c2_unknown_category_safety_witness :
    "Z" ∉ fittedCategories ["B", "A"]
      ∧ encodeRow ["B", "A"] "Z" = List.replicate (keptCategories ["B", "A"]).length 0 :=
  ⟨by decide, c2_unknown_category_safety ["B", "A"] "Z" (by decide)⟩

/-- Claim C3 (confirmed): scaling correctness.  The i-th column of the
transformed matrix inside the numeric block is the standardization of the
i-th numeric column computed from that column's own values; when the variance
(hence the standard deviation) is nonzero every transformed value is
`(x - mean) / sqrt variance`, and when it is zero — in particular for any
constant column — the guarded divisor 1 makes the whole column zero, never an
undefined value. -/
theorem c3_scaling_correctness (X : DataFrame) (i : ℕ) (h : i < (numericCols X).length) :
    (transformMatrixCols X)[i]? = some (scaleColumn ((numericCols X).get ⟨i, h⟩).numVals)
      ∧ (∀ xs : List ℚ, colVar xs ≠ 0 →
          scaleColumn xs
            = xs.map (fun (x : ℚ) => ((x : ℝ) - (colMean xs : ℝ)) / Real.sqrt (colVar xs)))
      ∧ (∀ xs : List ℚ, colVar xs = 0 → scaleColumn xs = List.replicate xs.length 0)
      ∧ (∀ (xs : List ℚ) (c : ℚ), (∀ x ∈ xs, x = c) →
          scaleColumn xs = List.replicate xs.length 0) := by
  refine ⟨?_, fun xs hxs => scaleColumn_of_var_ne_zero hxs,
    fun xs hxs => scaleColumn_of_var_eq_zero hxs,
    fun xs c hc => scaleColumn_of_var_eq_zero (colVar_of_const hc)⟩
  have hm : i < ((numericCols X).map (fun c => scaleColumn c.numVals)).length := by
    simpa using h
  show (transformMatrixCols X)[i]? = _
  unfold transformMatrixCols
  have hm2 : i < (((numericCols X).map (fun c => scaleColumn c.numVals))
      ++ ((objCols X).flatMap (fun c => (keptCategories c.objVals).map
          (fun cat => (indicatorColumn c.objVals cat).map (fun (q : ℚ) => (q : ℝ)))))).length := by
    rw [List.length_append]
    exact Nat.lt_of_lt_of_le hm (Nat.le_add_right _ _)
  rw [List.getElem?_append_left hm2, List.getElem?_append_left hm, List.getElem?_map,
    List.getElem?_eq_getElem h]
  simp [List.get_eq_getElem]

/-- Witness for C3 at a concrete input: the first numeric column of a
two-column frame. -/
theorem c3_scaling_correctness_witness :
    0 < (numericCols exNumCat).length
      ∧ (transformMatrixCols exNumCat)[0]?
          = some (scaleColumn ((numericCols exNumCat).get ⟨0, by decide⟩).numVals) :=
  ⟨by decide, (c3_scaling_correctness exNumCat 0 (by decide)).1⟩

/-- Claim C6 (confirmed): a target column name absent from the loaded table
fails the validation on lines 39-41 with the missing-column diagnostic; no
transformation is attempted and, in the main run, nothing is saved. -/
theorem c6_missing_target_column (df : DataFrame) (t : String) (h : t ∉ colNames df) :
    preprocess_data_for_classification (some df) t = Except.error (PipeErr.missingTarget t)
      ∧ (t = "Category" →
          (runMain (some df)).output = none
            ∧ (runMain (some df)).diag = some (PipeErr.missingTarget "Category")) := by
  have hp : preprocess_data_for_classification (some df) t
      = Except.error (PipeErr.missingTarget t) := by
    rw [preprocess_some_eq, if_neg h]
  refine ⟨hp, fun ht => ?_⟩
  subst ht
  simp [runMain, hp]

/-- Witness for C6 at a concrete input: a table without a `Category` column. -/
theorem c6_missing_target_column_witness :
    "Category" ∉ colNames [⟨"Age", ColData.num [1]⟩]
      ∧ (runMain (some [⟨"Age", ColData.num [1]⟩])).output = none :=
  ⟨by decide,
    ((c6_missing_target_column [⟨"Age", ColData.num [1]⟩] "Category" (by decide)).2 rfl).1⟩

/-- Claim C8 (confirmed): label encoding maps the distinct values to the
integers `0..k-1` in sorted order of the distinct values — the assignment is
a deterministic function of the input, every emitted code is below `k`, the
assignment is strictly monotone in the value order, and every code below `k`
is hit by some input value. -/
theorem c8_label_encoding_deterministic {α : Type} [DecidableEq α]
    (r : α → α → Prop) [DecidableRel r] [IsTotal α r] [IsTrans α r] [IsAntisymm α r]
    (l : List α) :
    labelEncodeBy r l = l.map (fun v => (sortedUniqueBy r l).indexOf v)
      ∧ (∀ v ∈ l, (sortedUniqueBy r l).indexOf v < (sortedUniqueBy r l).length)
      ∧ (∀ v ∈ l, ∀ w ∈ l, r v w → v ≠ w →
          (sortedUniqueBy r l).indexOf v < (sortedUniqueBy r l).indexOf w)
      ∧ (∀ j < (sortedUniqueBy r l).length, ∃ v ∈ l, (sortedUniqueBy r l).indexOf v = j) := by
  refine ⟨rfl, fun v hv => ?_, fun v hv w hw hr hne => ?_, fun j hj => ?_⟩
  · exact List.indexOf_lt_length.mpr ((mem_sortedUniqueBy r).mpr hv)
  · exact indexOf_lt_of_rel (sorted_sortedUniqueBy r l)
      ((mem_sortedUniqueBy r).mpr hv) ((mem_sortedUniqueBy r).mpr hw) hr hne
  · refine ⟨(sortedUniqueBy r l).get ⟨j, hj⟩, ?_, ?_⟩
    · exact (mem_sortedUniqueBy r).mp (List.get_mem _ _ _)
    · exact List.get_indexOf (nodup_sortedUniqueBy r l) ⟨j, hj⟩

/-- Witness for C8 at a concrete input: the classification-scenario target
column `["B", "A", "B"]` (code-point order), whose codes are `[1, 0, 1]`. -/
theorem c8_label_encoding_deterministic_witness :
    labelEncodeBy strLeRel ["B", "A", "B"] = [1, 0, 1]
      ∧ ("A" ∈ (["B", "A", "B"] : List String))
      ∧ (sortedUniqueBy strLeRel ["B", "A", "B"]).indexOf "A"
          < (sortedUniqueBy strLeRel ["B", "A", "B"]).length :=
  ⟨by decide, by decide,
    (c8_label_encoding_deterministic strLeRel ["B", "A", "B"]).2.1 "A" (by decide)⟩

end ShoppingPrep

namespace ShoppingPrep

/-- Claim C1 (confirmed): name/width invariant.  Whenever the length of the
generated name list differs from the transformed matrix's column count, the
run fails with a diagnostic carrying the expected and the actual count (the
warning on lines 90-91 prints both, and the `pd.DataFrame` call on line 93
then raises, caught on lines 99-103), the name list is never truncated or
padded — no frame is built at all — and no output file is produced. -/
theorem c1_name_width_invariant (df : DataFrame)
    (h1 : "Category" ∈ colNames df)
    (h2 : (transformMatrixCols (featureTable df "Category")).length
        ≠ (final_feature_names (featureTable df "Category")).length) :
    preprocess_data_for_classification (some df) "Category"
        = Except.error (PipeErr.countMismatch
            (transformMatrixCols (featureTable df "Category")).length
            (final_feature_names (featureTable df "Category")).length)
      ∧ (runMain (some df)).output = none
      ∧ (runMain (some df)).diag = some (PipeErr.countMismatch
            (transformMatrixCols (featureTable df "Category")).length
            (final_feature_names (featureTable df "Category")).length) := by
  have h2' : (outSpecs (featureTable df "Category")).length
      ≠ (final_feature_names (featureTable df "Category")).length := by
    rwa [length_transformMatrixCols] at h2
  have hp : preprocess_data_for_classification (some df) "Category"
      = Except.error (PipeErr.countMismatch (outSpecs (featureTable df "Category")).length
          (final_feature_names (featureTable df "Category")).length) := by
    rw [preprocess_some_eq, if_pos h1, if_neg h2']
  rw [length_transformMatrixCols]
  exact ⟨hp, by simp [runMain, hp], by simp [runMain, hp]⟩

/-- Witness for C1 at a concrete input: a table whose only feature column is
boolean-dtyped, so one passthrough matrix column exists but zero names are
generated. -/
theorem c1_name_width_invariant_witness :
    "Category" ∈ colNames exPassOnly
      ∧ (runMain (some exPassOnly)).output = none :=
  ⟨by decide,
    (c1_name_width_invariant exPassOnly (by decide)
      (by rw [length_transformMatrixCols]; decide)).2.1⟩

/-- Counterexample to claim C4 as stated: a boolean-dtype feature column is
covered by neither the Numeric nor the Categorical list — in particular it is
not "treated as Categorical by default" — so the two lists do not cover every
remaining column. -/
theorem c4_partition_counterexample :
    "Flag" ∈ colNames exOtherCol
      ∧ "Flag" ∉ numerical_features exOtherCol
      ∧ "Flag" ∉ categorical_features_for_ohe exOtherCol := by
  refine ⟨by decide, by decide, by decide⟩

/-- Claim C4 (amended): feature classification yields two ordered lists,
Numeric (numeric dtypes) and Categorical (object/text dtypes); together with
the passthrough list they cover every column exactly once, the Numeric and
Categorical lists are disjoint whenever column names are unique, and a column
of any other dtype lands in the passthrough list, not in the Categorical
list. -/
theorem c4_partition_amended (X : DataFrame) :
    (numerical_features X ++ (categorical_features_for_ohe X ++ passthroughNames X)).Perm
        (colNames X)
      ∧ ((colNames X).Nodup →
          ∀ n ∈ numerical_features X, n ∉ categorical_features_for_ohe X)
      ∧ (∀ c ∈ X, c.data.isOther = true → c.name ∈ passthroughNames X)
      ∧ ((colNames X).Nodup →
          ∀ c ∈ X, c.data.isOther = true → c.name ∉ categorical_features_for_ohe X) := by
  have hperm := names_partition_perm X
  refine ⟨hperm, fun hnd n hn hnc => ?_, fun c hc hoth => ?_, fun hnd c hc hoth => ?_⟩
  · have hnd' : (numerical_features X
        ++ (categorical_features_for_ohe X ++ passthroughNames X)).Nodup :=
      hperm.nodup_iff.mpr hnd
    rcases List.nodup_append.mp hnd' with ⟨-, -, hdisj⟩
    exact hdisj hn (List.mem_append_left _ hnc)
  · have : c ∈ otherCols X := List.mem_filter.mpr ⟨hc, hoth⟩
    exact List.mem_map_of_mem PCol.name this
  · intro hncat
    have hnd' : (numerical_features X
        ++ (categorical_features_for_ohe X ++ passthroughNames X)).Nodup :=
      hperm.nodup_iff.mpr hnd
    rcases List.nodup_append.mp hnd' with ⟨-, hnd2, -⟩
    rcases List.nodup_append.mp hnd2 with ⟨-, -, hdisj2⟩
    have hpass : c.name ∈ passthroughNames X :=
      List.mem_map_of_mem PCol.name (List.mem_filter.mpr ⟨hc, hoth⟩)
    exact hdisj2 hncat hpass

/-- Witness for C4 (amended) at a concrete input. -/
theorem c4_partition_amended_witness :
    (colNames exNumCat).Nodup
      ∧ "Age" ∈ numerical_features exNumCat
      ∧ "Age" ∉ categorical_features_for_ohe exNumCat :=
  ⟨by decide, by decide, (c4_partition_amended exNumCat).2.1 (by decide) "Age" (by decide)⟩

/-- Counterexample to claim C5 as stated: with a passthrough (boolean-dtype)
feature column present, the generated name list is strictly shorter than the
transformed matrix, so the name list cannot end with the passthrough columns
as the claim asserts. -/
theorem c5_output_order_counterexample :
    passthroughNames exNumPass ≠ []
      ∧ (final_feature_names exNumPass).length ≠ (transformMatrixCols exNumPass).length := by
  refine ⟨by decide, ?_⟩
  rw [length_transformMatrixCols]
  decide

/-- Claim C5 (amended): the matrix columns come in the fixed order
[scaled numeric, in feature-table order] ++ [indicator groups, grouped by
source column in feature-table order, each group sorted by category after the
first category is dropped] ++ [passthrough columns, in feature-table order]
(this is `outSpecs`), and the generated name list is exactly the names of the
numeric and indicator columns in that same order — passthrough columns get no
name — so names align one-to-one with matrix columns precisely when there are
no passthrough columns. -/
theorem c5_output_order_amended (X : DataFrame) :
    final_feature_names X = (outSpecs X).filterMap OutSpec.outName
      ∧ (transformMatrixCols X).length = (outSpecs X).length
      ∧ (outSpecs X).length = (final_feature_names X).length + (otherCols X).length
      ∧ (∀ c ∈ objCols X, (keptCategories c.objVals).Sorted strLeRel)
      ∧ (passthroughNames X = [] →
          (final_feature_names X).length = (transformMatrixCols X).length) := by
  refine ⟨final_feature_names_eq_filterMap X, length_transformMatrixCols X,
    outSpecs_length_eq X, fun c _ => sorted_keptCategories c.objVals, fun hp => ?_⟩
  have hoth : otherCols X = [] := by
    have := congrArg List.length hp
    simp only [passthroughNames, List.length_map, List.length_nil] at this
    exact List.length_eq_zero.mp this
  rw [length_transformMatrixCols, outSpecs_length_eq, hoth]
  simp

/-- Witness for C5 (amended) at a concrete input with no passthrough
columns. -/
theorem c5_output_order_amended_witness :
    passthroughNames exNumCat = []
      ∧ (final_feature_names exNumCat).length = (transformMatrixCols exNumCat).length :=
  ⟨by decide, (c5_output_order_amended exNumCat).2.2.2.2 (by decide)⟩

end ShoppingPrep

namespace ShoppingPrep

/-- Counterexample to claim C7 as stated: on an input-file-not-found run the
script prints its diagnostics and falls off the end of `__main__` — there is
no `sys.exit` anywhere — so the process completes with status 0, not with a
non-zero status. -/
theorem c7_failure_surface_counterexample :
    (runMain none).diag = some PipeErr.loadFailed
      ∧ (runMain none).output = none
      ∧ (runMain none).exitCode = 0 := by
  refine ⟨rfl, rfl, rfl⟩

/-- Claim C7 (amended): every failing run emits a distinguishable diagnostic
(the three failure conditions carry distinct `PipeErr` values) and writes no
output file — an output file exists exactly when no failure was diagnosed —
but the process always terminates with completion status 0, also on
failure. -/
theorem c7_failure_surface_amended (loaded : Option DataFrame) :
    (runMain loaded).exitCode = 0
      ∧ ((runMain loaded).output = none ↔ ((runMain loaded).diag).isSome)
      ∧ (loaded = none → (runMain loaded).diag = some PipeErr.loadFailed) := by
  cases hp : preprocess_data_for_classification loaded "Category" with
  | error e =>
    refine ⟨by simp [runMain, hp], by simp [runMain, hp], fun hl => ?_⟩
    subst hl
    have h0 : preprocess_data_for_classification (none : Option DataFrame) "Category"
        = Except.error PipeErr.loadFailed := rfl
    rw [h0] at hp
    cases hp
    simp [runMain, h0]
  | ok p =>
    refine ⟨by simp [runMain, hp], by simp [runMain, hp], fun hl => ?_⟩
    subst hl
    have h0 : preprocess_data_for_classification (none : Option DataFrame) "Category"
        = Except.error PipeErr.loadFailed := rfl
    rw [h0] at hp
    cases hp

/-- Witness for C7 (amended) at a concrete input: the file-not-found run. -/
theorem c7_failure_surface_amended_witness :
    (runMain none).exitCode = 0 ∧ (runMain none).diag = some PipeErr.loadFailed :=
  ⟨(c7_failure_surface_amended none).1, (c7_failure_surface_amended none).2.2 rfl⟩

/-- Counterexample to claim C9 as stated: with the continuous column `Amount`
as target, the returned target series is `[0, 1, 2]` — the label-encoded
ranks produced by the unconditional `LabelEncoder` on line 46 — and not the
raw values `[10, 20, 30]`. -/
theorem c9_regression_target_counterexample :
    (preprocess_data_for_classification (some exAmount) "Amount").map
        (fun p => p.y.map (fun (n : ℕ) => (n : ℚ)))
      = Except.ok [0, 1, 2]
      ∧ (Except.ok [0, 1, 2] : Except PipeErr (List ℚ)) ≠ Except.ok [10, 20, 30] := by
  refine ⟨by decide, by decide⟩

/-- Claim C9 (amended): the target column is always label-encoded — also when
it is continuous — so the returned target series holds the sorted-rank codes
of the raw values, not the raw values themselves; that encoded series is then
reattached, unscaled further, as the last column of the saved output. -/
theorem c9_target_encoding_amended (df : DataFrame) (t : String) (p : PreOut)
    (h : preprocess_data_for_classification (some df) t = Except.ok p) :
    p.y = labelEncodeData (targetVals df t)
      ∧ (∀ nm : String, (save_combined_data p nm).header = p.featureNames ++ [nm]
          ∧ (save_combined_data p nm).targetCol = p.y) := by
  obtain ⟨-, -, -, hy, -⟩ := preprocess_ok_inv h
  exact ⟨hy, fun nm => ⟨rfl, rfl⟩⟩

/-- Witness for C9 (amended) at a concrete input: the `Amount`-target run. -/
theorem c9_target_encoding_amended_witness :
    preprocess_data_for_classification (some exAmount) "Amount"
        = Except.ok ⟨[⟨"Size", ColData.num [1, 2, 3]⟩], ["Size"], [0, 1, 2]⟩
      ∧ (⟨[⟨"Size", ColData.num [1, 2, 3]⟩], ["Size"], [0, 1, 2]⟩ : PreOut).y
          = labelEncodeData (targetVals exAmount "Amount") :=
  ⟨by decide,
    (c9_target_encoding_amended exAmount "Amount"
      ⟨[⟨"Size", ColData.num [1, 2, 3]⟩], ["Size"], [0, 1, 2]⟩ (by decide)).1⟩

/-- Counterexample to claim C10 as stated: a feature table with no
object-dtype column but one boolean-dtype column does not complete without
error — the passthrough column has a matrix column but no generated name, so
the run fails the count check. -/
theorem c10_zero_categorical_counterexample :
    categorical_features_for_ohe (featureTable exPassOnly "Category") = []
      ∧ preprocess_data_for_classification (some exPassOnly) "Category"
          = Except.error (PipeErr.countMismatch 1 0) := by
  refine ⟨by decide, by decide⟩

/-- Claim C10 (amended): with no object-dtype feature columns the one-hot
name list is empty and the generated names are exactly the numeric column
names in order; the run completes without error precisely when additionally
no feature column has some other non-numeric dtype — in particular it does
complete, with the names equal to all feature-table column names in original
order, when every feature column is numeric. -/
theorem c10_zero_categorical_amended (df : DataFrame) (t : String)
    (h1 : t ∈ colNames df)
    (h2 : objCols (featureTable df t) = []) :
    ohe_feature_names (featureTable df t) = []
      ∧ final_feature_names (featureTable df t) = numerical_features (featureTable df t)
      ∧ ((∃ p, preprocess_data_for_classification (some df) t = Except.ok p
            ∧ p.featureNames = numerical_features (featureTable df t))
          ↔ otherCols (featureTable df t) = [])
      ∧ ((∀ c ∈ featureTable df t, c.data.isNum = true) →
          ∃ p, preprocess_data_for_classification (some df) t = Except.ok p
            ∧ p.featureNames = colNames (featureTable df t)) := by
  have hohe : ohe_feature_names (featureTable df t) = [] := by
    simp [ohe_feature_names, h2]
  have hnames : final_feature_names (featureTable df t)
      = numerical_features (featureTable df t) := by
    simp [final_feature_names, hohe]
  have hlen := outSpecs_length_eq (featureTable df t)
  refine ⟨hohe, hnames, ⟨?_, ?_⟩, ?_⟩
  · rintro ⟨p, hp, -⟩
    obtain ⟨-, -, -, -, hcount⟩ := preprocess_ok_inv hp
    have : (otherCols (featureTable df t)).length = 0 := by omega
    exact List.length_eq_zero.mp this
  · intro hoth
    have hcount : (outSpecs (featureTable df t)).length
        = (final_feature_names (featureTable df t)).length := by
      rw [hlen, hoth]
      simp
    refine ⟨⟨featureTable df t, final_feature_names (featureTable df t),
      labelEncodeData (targetVals df t)⟩, ?_, hnames⟩
    rw [preprocess_some_eq, if_pos h1, if_pos hcount]
  · intro hall
    have hoth : otherCols (featureTable df t) = [] := by
      apply List.filter_eq_nil_iff.mpr
      intro c hc
      rcases dtype_cases c.data with ⟨-, -, hc3⟩ | ⟨-, -, hc3⟩ | ⟨hc1, -, -⟩
      · simp [hc3]
      · simp [hc3]
      · rw [hall c hc] at hc1
        cases hc1
    have hnum : numericCols (featureTable df t) = featureTable df t :=
      List.filter_eq_self.mpr hall
    have hcols : numerical_features (featureTable df t) = colNames (featureTable df t) := by
      rw [numerical_features, hnum, colNames]
    have hcount : (outSpecs (featureTable df t)).length
        = (final_feature_names (featureTable df t)).length := by
      rw [hlen, hoth]
      simp
    refine ⟨⟨featureTable df t, final_feature_names (featureTable df t),
      labelEncodeData (targetVals df t)⟩, ?_, hnames.trans hcols⟩
    rw [preprocess_some_eq, if_pos h1, if_pos hcount]

/-- Witness for C10 (amended) at a concrete input: an all-numeric feature
table. -/
theorem c10_zero_categorical_amended_witness :
    (∀ c ∈ featureTable exAllNum "Category", c.data.isNum = true)
      ∧ ∃ p, preprocess_data_for_classification (some exAllNum) "Category" = Except.ok p
          ∧ p.featureNames = colNames (featureTable exAllNum "Category") :=
  ⟨by decide,
    (c10_zero_categorical_amended exAllNum "Category" (by decide) (by decide)).2.2.2
      (by decide)⟩

end ShoppingPrep
